import Mathlib

set_option autoImplicit false
set_option maxHeartbeats 1000000
set_option maxRecDepth 8192

/-!
Shallow embedding of the weather-data pipeline in `src/lambda_function.py`.

Python JSON-like values are modelled by the inductive type `PyVal`
(dictionaries as association lists, keys unique); machine floats are
modelled as exact rationals, so IEEE-specific behaviour (infinities,
NaN, rounding of long decimals) is outside the model's scope, as is
digit-separating underscore syntax in `float()` string parsing.
Functions that can raise in Python are modelled in `Except Unit`;
functions whose bodies are total are plain Lean functions.
-/

inductive PyVal where
  | none
  | bool (b : Bool)
  | int (n : Int)
  | float (q : ℚ)
  | str (s : String)
  | list (xs : List PyVal)
  | dict (entries : List (String × PyVal))

/-- First-match association-list lookup, the model of Python `dict` access
(model dictionaries carry each key at most once, so first match is the match). -/
def lookupStr : List (String × PyVal) → String → Option PyVal
  | [], _ => Option.none
  | (k', v) :: rest, k => if k' = k then Option.some v else lookupStr rest k

/-- Python truthiness (`bool(x)`), used by `data or {}` and `if forecast_periods`. -/
def pyTruthy : PyVal → Bool
  | .none => false
  | .bool b => b
  | .int n => n != 0
  | .float q => q != 0
  | .str s => s != ""
  | .list xs => !xs.isEmpty
  | .dict m => !m.isEmpty

/-- `x is None`. -/
def isNoneB : PyVal → Bool
  | .none => true
  | _ => false

/-- The loop body of `safe_get_value` (src/lambda_function.py:185-189):
`for key in keys: if not isinstance(result, Mapping): return default;
result = result.get(key, {})`, then `return result if result is not None
else default`. -/
def sgvGo : PyVal → List String → PyVal → PyVal
  | result, [], dflt => if isNoneB result then dflt else result
  | result, k :: ks, dflt =>
    match result with
    | .dict m => sgvGo ((lookupStr m k).getD (PyVal.dict [])) ks dflt
    | _ => dflt

/-- `safe_get_value` (src/lambda_function.py:182-191).  `result = data or {}`
then the key loop.  The source's `except (AttributeError, TypeError)` guard
can never fire: every operation in the body is total once the `Mapping`
check has passed, so the model needs no exception case. -/
def safe_get_value (data : PyVal) (keys : List String) (dflt : PyVal) : PyVal :=
  sgvGo (if pyTruthy data then data else PyVal.dict []) keys dflt

theorem sgvGo_emptyDict (ks : List String) (dflt : PyVal) :
    sgvGo (PyVal.dict []) ks dflt = PyVal.dict [] := by
  induction ks with
  | nil => rfl
  | cons k ks ih => simpa [sgvGo, lookupStr] using ih

/-- The whitespace characters removed by Python's `str.strip()`. -/
def isPySpace (c : Char) : Bool :=
  c = ' ' || c = '\t' || c = '\n' || c = '\r' || c = '\x0b' || c = '\x0c'

/-- Python `str.strip(...)` on a character predicate: drop matching characters
from both ends. -/
def pyStripIf (p : Char → Bool) (cs : List Char) : List Char :=
  ((cs.dropWhile p).reverse.dropWhile p).reverse

/-- Decimal digit run to a natural number. -/
def digitsToNat (ds : List Char) : Nat :=
  ds.foldl (fun acc c => 10 * acc + (c.toNat - 48)) 0

/-- Optional sign: returns (is-negative, rest). -/
def parseSignOpt : List Char → Bool × List Char
  | '-' :: rest => (true, rest)
  | '+' :: rest => (false, rest)
  | cs => (false, cs)

/-- Exponent part after `e`/`E`: optional sign then a nonempty digit run
consuming the whole remainder. -/
def parseExp (cs : List Char) : Option Int :=
  let sr := parseSignOpt cs
  let ds := sr.2.takeWhile Char.isDigit
  let rest := sr.2.dropWhile Char.isDigit
  if ds.isEmpty || !rest.isEmpty then Option.none
  else Option.some (if sr.1 then -(digitsToNat ds : Int) else (digitsToNat ds : Int))

/-- The rational denoted by a decimal numeral `[-] ip . fp e e`, built with
`mkRat` so that it evaluates inside the kernel. -/
def ratOfDecimal (neg : Bool) (ip fp : List Char) (e : Int) : ℚ :=
  let n : Int := Int.ofNat (digitsToNat ip * 10 ^ fp.length + digitsToNat fp)
  let sn : Int := if neg then -n else n
  match e with
  | Int.ofNat k => mkRat (sn * Int.ofNat (10 ^ k)) (10 ^ fp.length)
  | Int.negSucc k => mkRat sn (10 ^ fp.length * 10 ^ (k + 1))

theorem ratOfDecimal_spec (neg : Bool) (ip fp : List Char) (e : Int) :
    ratOfDecimal neg ip fp e =
      (if neg then (-1 : ℚ) else 1) *
        ((digitsToNat ip : ℚ) + (digitsToNat fp : ℚ) / (10 : ℚ) ^ fp.length) *
        (10 : ℚ) ^ e := by
  have h10 : ((10 : ℚ) ^ fp.length) ≠ 0 := by positivity
  cases e with
  | ofNat k =>
    have hz : ((10 : ℚ) ^ (Int.ofNat k)) = (10 : ℚ) ^ k := zpow_natCast 10 k
    simp only [ratOfDecimal, Rat.mkRat_eq_div, hz]
    push_cast
    cases neg <;> field_simp
  | negSucc k =>
    have hz : ((10 : ℚ) ^ (Int.negSucc k)) = ((10 : ℚ) ^ (k + 1))⁻¹ := zpow_negSucc 10 k
    simp only [ratOfDecimal, Rat.mkRat_eq_div, hz]
    push_cast
    cases neg <;> field_simp

/-- Model of Python `float(s)` on decimal numerals: surrounding whitespace is
ignored, then optional sign, integer digits, optional `.` and fraction digits
(at least one digit in total), optional exponent.  The special spellings
`inf`/`nan` and digit-group underscores are outside the model's scope (the
model's floats are exact rationals). -/
def parseFloatQ (s : String) : Option ℚ :=
  let cs := pyStripIf isPySpace s.data
  let sr := parseSignOpt cs
  let ip := sr.2.takeWhile Char.isDigit
  let cs2 := sr.2.dropWhile Char.isDigit
  let fpRest : List Char × List Char :=
    match cs2 with
    | '.' :: rest => (rest.takeWhile Char.isDigit, rest.dropWhile Char.isDigit)
    | _ => ([], cs2)
  if ip.isEmpty && fpRest.1.isEmpty then Option.none
  else
    match fpRest.2 with
    | [] => Option.some (ratOfDecimal sr.1 ip fpRest.1 0)
    | 'e' :: rest => (parseExp rest).map (ratOfDecimal sr.1 ip fpRest.1)
    | 'E' :: rest => (parseExp rest).map (ratOfDecimal sr.1 ip fpRest.1)
    | _ => Option.none

/-- Model of Python `float(value)`: numbers and booleans convert, strings are
parsed, everything else raises `TypeError`/`ValueError` (modelled as
`Option.none`; `format_number` catches exactly these). -/
def toFloat : PyVal → Option ℚ
  | .bool b => Option.some (if b then mkRat 1 1 else mkRat 0 1)
  | .int n => Option.some (mkRat n 1)
  | .float q => Option.some q
  | .str s => parseFloatQ s
  | _ => Option.none

theorem toFloat_int_eq_cast (n : Int) : toFloat (PyVal.int n) = Option.some (n : ℚ) := by
  simp [toFloat, Rat.mkRat_one]

/-- Python `value == ''` (false for every non-string value). -/
def pyEqEmptyStrB : PyVal → Bool
  | .str s => s == ""
  | _ => false

/-- `format_number` (src/lambda_function.py:200-207): `''` for `None` or `''`;
otherwise `float(value)`, returned as an integer when it has no fractional
part and as a float when it does; the value unchanged when conversion fails. -/
def format_number (v : PyVal) : PyVal :=
  match v with
  | .none => PyVal.str ""
  | w =>
    if pyEqEmptyStrB w then PyVal.str ""
    else
      match toFloat w with
      | Option.some q => if q.den = 1 then PyVal.int q.num else PyVal.float q
      | Option.none => w

/-- Scalar record-field values: the input shapes `clean_value` receives
(the spec's WeatherRecord fields are scalars, and the claims about the
cleaner enumerate exactly these shapes). -/
inductive Scalar where
  | none
  | bool (b : Bool)
  | int (n : Int)
  | float (q : ℚ)
  | str (s : String)

/-- Decimal digits of `rem / den` by long division; stops at remainder zero
(`fuel = den` digits always suffice for a terminating expansion, and every
actual machine float is a dyadic rational, whose expansion terminates). -/
def fracDigits : Nat → Nat → Nat → List Char
  | 0, _, _ => []
  | _ + 1, 0, _ => []
  | fuel + 1, rem, den =>
    Char.ofNat (48 + rem * 10 / den) :: fracDigits fuel (rem * 10 % den) den

/-- Python `str()` of a float, on the model's exact rationals: sign, integer
part, decimal point, then the exact decimal expansion of the fractional part
(`".0"` when there is none, as Python prints for integral floats). -/
def floatRepr (q : ℚ) : String :=
  let sgn := if q.num < 0 then "-" else ""
  let n := q.num.natAbs
  let d := q.den
  let ip := n / d
  let rem := n % d
  if rem = 0 then sgn ++ toString ip ++ ".0"
  else sgn ++ toString ip ++ "." ++ String.mk (fracDigits d rem d)

/-- One pass of Python `str.replace('""', '"')`: replace each non-overlapping
doubled-quote pair, scanning left to right. -/
def collapseOnce : List Char → List Char
  | [] => []
  | [c] => [c]
  | a :: b :: rest =>
    if a == '"' && b == '"' then '"' :: collapseOnce rest
    else a :: collapseOnce (b :: rest)

/-- Python `'""' in s`: the string contains two adjacent quote characters. -/
def hasDoubleQuote : List Char → Bool
  | a :: b :: rest => (a == '"' && b == '"') || hasDoubleQuote (b :: rest)
  | _ => false

/-- The source's `while '""' in cleaned: cleaned = cleaned.replace('""','"')`
loop with explicit fuel; `Option.none` models the loop failing to terminate
within the fuel. -/
def collapseLoop : Nat → List Char → Option (List Char)
  | 0, s => if hasDoubleQuote s then Option.none else Option.some s
  | n + 1, s =>
    if hasDoubleQuote s then collapseLoop n (collapseOnce s) else Option.some s

/-- The loop's value, with the fuel baked in (`s.length` passes always
suffice; `collapseLoop_eq_loopGo` below proves the fuel is never exhausted). -/
def loopGo : Nat → List Char → List Char
  | 0, s => s
  | n + 1, s => if hasDoubleQuote s then loopGo n (collapseOnce s) else s

def collapseQuotes (s : List Char) : List Char := loopGo s.length s

theorem hasDoubleQuote_length : ∀ {s : List Char}, hasDoubleQuote s = true → 2 ≤ s.length
  | a :: b :: rest, _ => by simp [List.length]
  | [], h => by simp [hasDoubleQuote] at h
  | [c], h => by simp [hasDoubleQuote] at h

theorem collapseOnce_length_le : ∀ (s : List Char), (collapseOnce s).length ≤ s.length
  | [] => by simp [collapseOnce]
  | [c] => by simp [collapseOnce]
  | a :: b :: rest => by
    by_cases h : (a == '"' && b == '"') = true
    · have := collapseOnce_length_le rest
      simp [collapseOnce, h]
      omega
    · have := collapseOnce_length_le (b :: rest)
      simp only [Bool.not_eq_true] at h
      simp [collapseOnce, h] at this ⊢
      omega

theorem collapseOnce_length_lt : ∀ (s : List Char), hasDoubleQuote s = true →
    (collapseOnce s).length < s.length
  | [], h => by simp [hasDoubleQuote] at h
  | [c], h => by simp [hasDoubleQuote] at h
  | a :: b :: rest, h => by
    by_cases hq : (a == '"' && b == '"') = true
    · have := collapseOnce_length_le rest
      simp [collapseOnce, hq]
      omega
    · have hrest : hasDoubleQuote (b :: rest) = true := by
        simp only [hasDoubleQuote, Bool.or_eq_true] at h
        rcases h with h | h
        · exact absurd h hq
        · exact h
      have := collapseOnce_length_lt (b :: rest) hrest
      simp only [Bool.not_eq_true] at hq
      simp [collapseOnce, hq] at this ⊢
      omega

theorem collapseLoop_eq_loopGo : ∀ (n : Nat), ∀ (m : Nat) (s : List Char),
    s.length ≤ n → s.length ≤ m → collapseLoop n s = Option.some (loopGo m s) := by
  intro n
  induction n with
  | zero =>
    intro m s hn _
    have hs : s = [] := List.length_eq_zero.mp (Nat.le_zero.mp hn)
    subst hs
    cases m <;> rfl
  | succ n ih =>
    intro m s hn hm
    by_cases hd : hasDoubleQuote s = true
    · have h2 := hasDoubleQuote_length hd
      obtain ⟨m', rfl⟩ : ∃ m', m = m' + 1 := ⟨m - 1, by omega⟩
      have hlt := collapseOnce_length_lt s hd
      have e1 : collapseLoop (n + 1) s = collapseLoop n (collapseOnce s) := by
        simp [collapseLoop, hd]
      have e2 : loopGo (m' + 1) s = loopGo m' (collapseOnce s) := by
        simp [loopGo, hd]
      rw [e1, e2]
      exact ih m' (collapseOnce s) (by omega) (by omega)
    · simp only [Bool.not_eq_true] at hd
      cases m <;> simp [collapseLoop, loopGo, hd]

/-- The cleaner's pre-processing of a string (src/lambda_function.py:264):
`value.strip().replace('\n', ' ').replace('\r', '')`. -/
def cleanPre (s : List Char) : List Char :=
  ((pyStripIf isPySpace s).map (fun c => if c == '\n' then ' ' else c)).filter
    (fun c => !(c == '\r'))

/-- The cleaner's post-processing (src/lambda_function.py:269-273):
`cleaned.strip('"')`, then if a comma or quote remains, wrap in quotes and
drop backticks, else return as is. -/
def cleanPost (t : List Char) : List Char :=
  let u := pyStripIf (fun c => c == '"') t
  if u.any (fun c => c == ',') || u.any (fun c => c == '"') then
    '"' :: (u.filter (fun c => !(c == '`'))) ++ ['"']
  else u

/-- The string branch of `clean_value` (src/lambda_function.py:262-273). -/
def cleanString (s : String) : String :=
  String.mk (cleanPost (collapseQuotes (cleanPre s.data)))

/-- `clean_value` (src/lambda_function.py:255-274): `None` to the empty
string, booleans and numbers to their literal string form, strings through
the cleaning pipeline.  (`Scalar` has no further constructors, so the
source's final `return str(value)` fallback for non-scalar shapes has no
case here.) -/
def clean_value : Scalar → String
  | .none => ""
  | .bool b => if b then "True" else "False"
  | .int n => toString n
  | .float q => floatRepr q
  | .str s => cleanString s

/-- `clean_value` with explicit fuel for the quote-collapsing loop;
`Option.none` models the loop failing to terminate within the fuel. -/
def cleanValueFuel (n : Nat) : Scalar → Option String
  | .str s => (collapseLoop n (cleanPre s.data)).map (fun t => String.mk (cleanPost t))
  | v => Option.some (clean_value v)

/-- Fuel sufficient for `cleanValueFuel`: the input string's length. -/
def scalarFuelBound : Scalar → Nat
  | .str s => s.data.length
  | _ => 0

theorem length_dropWhile_le (p : Char → Bool) :
    ∀ (l : List Char), (l.dropWhile p).length ≤ l.length := by
  intro l
  induction l with
  | nil => simp [List.dropWhile]
  | cons c t ih =>
    by_cases h : p c = true
    · simp [List.dropWhile, h]
      omega
    · simp only [Bool.not_eq_true] at h
      simp [List.dropWhile, h]

theorem pyStripIf_length_le (p : Char → Bool) (l : List Char) :
    (pyStripIf p l).length ≤ l.length := by
  unfold pyStripIf
  calc ((l.dropWhile p).reverse.dropWhile p).reverse.length
      = ((l.dropWhile p).reverse.dropWhile p).length := by rw [List.length_reverse]
    _ ≤ (l.dropWhile p).reverse.length := length_dropWhile_le p _
    _ = (l.dropWhile p).length := by rw [List.length_reverse]
    _ ≤ l.length := length_dropWhile_le p l

theorem cleanPre_length_le (s : List Char) : (cleanPre s).length ≤ s.length := by
  unfold cleanPre
  calc (((pyStripIf isPySpace s).map (fun c => if c == '\n' then ' ' else c)).filter
        (fun c => !(c == '\r'))).length
      ≤ ((pyStripIf isPySpace s).map (fun c => if c == '\n' then ' ' else c)).length :=
        List.length_filter_le _ _
    _ = (pyStripIf isPySpace s).length := List.length_map _ _
    _ ≤ s.length := pyStripIf_length_le isPySpace s

/-- Claim C4 (confirmed): the Record Cleaner is pure and total.  For every
scalar input it returns a string, and in particular the doubled-quote
collapsing loop always terminates: running it with any fuel of at least the
input string's length returns (`Option.some`) exactly the fuel-free result,
never the fuel-exhaustion marker. -/
theorem c4_clean_value_total (v : Scalar) (n : Nat) (h : scalarFuelBound v ≤ n) :
    cleanValueFuel n v = Option.some (clean_value v) := by
  cases v with
  | str s =>
    have hlen : (cleanPre s.data).length ≤ n :=
      le_trans (cleanPre_length_le s.data) h
    have hloop := collapseLoop_eq_loopGo n (cleanPre s.data).length (cleanPre s.data)
      hlen le_rfl
    simp [cleanValueFuel, clean_value, cleanString, collapseQuotes, hloop]
  | none => rfl
  | bool b => rfl
  | int m => rfl
  | float q => rfl

/-- Witness for C4 at a concrete input: a string with an embedded doubled
quote is cleaned (within fuel 6) to the single-quoted, wrapped form. -/
theorem c4_clean_value_total_witness :
    cleanValueFuel 6 (Scalar.str "a\"\"b") = Option.some (clean_value (Scalar.str "a\"\"b"))
    ∧ clean_value (Scalar.str "a\"\"b") = "\"a\"b\"" :=
  ⟨c4_clean_value_total (Scalar.str "a\"\"b") 6 (by decide), by decide⟩

/-! ### Claim C5: spec-side description of the string cleaning pipeline -/

/-- Specification-side quote-run collapsing: every run of quote characters
becomes a single quote (the boolean state records whether the previous
character was a quote). -/
def collapseRunsAux : Bool → List Char → List Char
  | _, [] => []
  | prevQ, c :: rest =>
    if c == '"' then
      if prevQ then collapseRunsAux true rest
      else '"' :: collapseRunsAux true rest
    else c :: collapseRunsAux false rest

def collapseRuns (s : List Char) : List Char := collapseRunsAux false s

theorem collapseRunsAux_collapseOnce : ∀ (s : List Char) (b : Bool),
    collapseRunsAux b (collapseOnce s) = collapseRunsAux b s
  | [], _ => rfl
  | [c], _ => rfl
  | a :: b' :: t, b => by
    by_cases h1 : a = '"'
    · by_cases h2 : b' = '"'
      · have ih := collapseRunsAux_collapseOnce t true
        subst h1
        subst h2
        cases b <;> simp [collapseOnce, collapseRunsAux, ih]
      · have ih := collapseRunsAux_collapseOnce (b' :: t) true
        subst h1
        cases b <;>
          simp [collapseOnce, collapseRunsAux, beq_iff_eq, h2, ih]
    · have ih := collapseRunsAux_collapseOnce (b' :: t) false
      cases b <;> simp [collapseOnce, collapseRunsAux, beq_iff_eq, h1, ih]

/-- The head of the list is not a quote character (or the list is empty). -/
def headNotQuote : List Char → Bool
  | [] => true
  | c :: _ => !(c == '"')

theorem hasDoubleQuote_tail {c : Char} {t : List Char}
    (h : hasDoubleQuote (c :: t) = false) : hasDoubleQuote t = false := by
  cases t with
  | nil => rfl
  | cons d u =>
    simp only [hasDoubleQuote, Bool.or_eq_false_iff] at h
    exact h.2

theorem collapseRunsAux_of_no_double : ∀ (s : List Char), hasDoubleQuote s = false →
    collapseRunsAux false s = s ∧ (headNotQuote s = true → collapseRunsAux true s = s)
  | [], _ => ⟨rfl, fun _ => rfl⟩
  | c :: t, h => by
    have ih := collapseRunsAux_of_no_double t (hasDoubleQuote_tail h)
    by_cases hc : c = '"'
    · subst hc
      have hhd : headNotQuote t = true := by
        cases t with
        | nil => rfl
        | cons d u =>
          simp only [hasDoubleQuote, Bool.or_eq_false_iff, Bool.and_eq_false_iff] at h
          rcases h.1 with hq | hq
          · simp at hq
          · simp [headNotQuote, hq]
      constructor
      · simp [collapseRunsAux, ih.2 hhd]
      · intro hq
        simp [headNotQuote] at hq
    · constructor
      · simp [collapseRunsAux, beq_iff_eq, hc, ih.1]
      · intro _
        simp [collapseRunsAux, beq_iff_eq, hc, ih.1]

theorem loopGo_eq_collapseRuns : ∀ (n : Nat) (s : List Char), s.length ≤ n →
    loopGo n s = collapseRuns s := by
  intro n
  induction n with
  | zero =>
    intro s hn
    have hs : s = [] := List.length_eq_zero.mp (Nat.le_zero.mp hn)
    subst hs
    rfl
  | succ n ih =>
    intro s hn
    by_cases hd : hasDoubleQuote s = true
    · have hlt := collapseOnce_length_lt s hd
      have e1 : loopGo (n + 1) s = loopGo n (collapseOnce s) := by simp [loopGo, hd]
      rw [e1, ih (collapseOnce s) (by omega)]
      exact collapseRunsAux_collapseOnce s false
    · simp only [Bool.not_eq_true] at hd
      simp [loopGo, hd]
      exact (collapseRunsAux_of_no_double s hd).1.symm

theorem collapseQuotes_eq_collapseRuns (s : List Char) :
    collapseQuotes s = collapseRuns s :=
  loopGo_eq_collapseRuns s.length s le_rfl

/-- The string cleaning exactly as claim C5 states it: trim whitespace,
REMOVE newline and carriage-return characters, collapse quote runs, strip
edge quotes, then wrap/strip backticks when a comma or quote remains. -/
def c5SpecStated (s : String) : String :=
  let t1 := pyStripIf isPySpace s.data
  let t2 := t1.filter (fun c => !(c == '\n') && !(c == '\r'))
  let t3 := collapseRuns t2
  let t4 := pyStripIf (fun c => c == '"') t3
  String.mk (if t4.any (fun c => c == ',') || t4.any (fun c => c == '"') then
    '"' :: (t4.filter (fun c => !(c == '`'))) ++ ['"']
  else t4)

/-- The amended description: as stated by C5 except that newline characters
are REPLACED BY A SPACE (carriage returns are removed). -/
def c5SpecAmended (s : String) : String :=
  let t1 := pyStripIf isPySpace s.data
  let t2 := (t1.map (fun c => if c == '\n' then ' ' else c)).filter (fun c => !(c == '\r'))
  let t3 := collapseRuns t2
  let t4 := pyStripIf (fun c => c == '"') t3
  String.mk (if t4.any (fun c => c == ',') || t4.any (fun c => c == '"') then
    '"' :: (t4.filter (fun c => !(c == '`'))) ++ ['"']
  else t4)

/-- Claim C5 (corrected), counterexample to the claim as stated: the cleaner
does not remove an embedded newline, it replaces it with a space, so
`"a\nb"` cleans to `"a b"` and not to the claimed `"ab"`. -/
theorem c5_counterexample :
    clean_value (Scalar.str "a\nb") ≠ c5SpecStated "a\nb"
      ∧ clean_value (Scalar.str "a\nb") = "a b"
      ∧ c5SpecStated "a\nb" = "ab" := by
  refine ⟨?_, ?_, ?_⟩ <;> decide

/-- Claim C5 (amended): for every string input the Record Cleaner trims
surrounding whitespace, replaces embedded newlines by spaces and removes
carriage returns, collapses every run of quote characters to a single quote,
strips leading/trailing quotes, and — exactly when the result still contains
a comma or quote — wraps it in quotes and removes all backticks; otherwise
the string is returned unwrapped with backticks intact. -/
theorem c5_clean_string_amended (s : String) : cleanString s = c5SpecAmended s := by
  unfold cleanString c5SpecAmended cleanPost cleanPre
  rw [collapseQuotes_eq_collapseRuns]

/-! ### Field normalization (`process_weather_data`, src/lambda_function.py:172-246) -/

/-- Escape characters inside a Python string repr with quote character `q`:
backslash, the quote itself, newline, carriage return and tab (other control
characters are rendered verbatim — a model restriction that no claim
observes). -/
def pyReprStrEsc (q : Char) (cs : List Char) : List Char :=
  cs.foldr (fun c acc =>
    if c == '\\' then '\\' :: '\\' :: acc
    else if c == q then '\\' :: c :: acc
    else if c == '\n' then '\\' :: 'n' :: acc
    else if c == '\r' then '\\' :: 'r' :: acc
    else if c == '\t' then '\\' :: 't' :: acc
    else c :: acc) []

/-- Python `repr()` of a string: single-quoted unless the string contains a
single quote and no double quote, in which case double-quoted. -/
def pyReprStr (s : String) : String :=
  let sq := Char.ofNat 39
  let hasSingle := s.data.any (fun c => c == sq)
  let hasDouble := s.data.any (fun c => c == '"')
  let q := if hasSingle && !hasDouble then '"' else sq
  String.mk (q :: pyReprStrEsc q s.data ++ [q])

mutual

/-- Python `repr()` of a JSON-like value (used by `str()` on containers). -/
def pyRepr : PyVal → String
  | .none => "None"
  | .bool b => if b then "True" else "False"
  | .int n => toString n
  | .float q => floatRepr q
  | .str s => pyReprStr s
  | .list xs => "[" ++ pyReprSeq xs ++ "]"
  | .dict m => "\x7b" ++ pyReprEntries m ++ "\x7d"

def pyReprSeq : List PyVal → String
  | [] => ""
  | [x] => pyRepr x
  | x :: rest => pyRepr x ++ ", " ++ pyReprSeq rest

def pyReprEntries : List (String × PyVal) → String
  | [] => ""
  | [(k, v)] => pyReprStr k ++ ": " ++ pyRepr v
  | (k, v) :: rest => pyReprStr k ++ ": " ++ pyRepr v ++ ", " ++ pyReprEntries rest

end

/-- Python `str()`: the string itself for strings, `repr`-style rendering
for every other value. -/
def pyStr : PyVal → String
  | .str s => s
  | v => pyRepr v

/-- `str.strip('"')` on both ends. -/
def stripQuotesStr (s : String) : String :=
  String.mk (pyStripIf (fun c => c == '"') s.data)

/-- `str.replace(',', '|')`. -/
def commaToPipe (s : String) : String :=
  String.mk (s.data.map (fun c => if c == ',' then '|' else c))

/-- `x.get(k, dflt)` where `x` must be a dict; on any other shape Python
raises `AttributeError` (uncaught at the call sites modelled with this). -/
def pyGetE (v : PyVal) (k : String) (dflt : PyVal) : Except Unit PyVal :=
  match v with
  | .dict m => Except.ok ((lookupStr m k).getD dflt)
  | _ => Except.error ()

/-- `forecast_periods[0] if forecast_periods else {}`
(src/lambda_function.py:177).  Falsy values give `{}`; a nonempty list gives
its first element; a nonempty string gives its first character; indexing a
truthy number or bool raises `TypeError`, and `d[0]` on a nonempty dict
misses (model dictionaries are string-keyed) and raises `KeyError` — both
uncaught. -/
def firstPeriod (periodsV : PyVal) : Except Unit PyVal :=
  match periodsV with
  | .list (x :: _) => Except.ok x
  | .list [] => Except.ok (PyVal.dict [])
  | .none => Except.ok (PyVal.dict [])
  | .bool b => if b then Except.error () else Except.ok (PyVal.dict [])
  | .int n => if n == 0 then Except.ok (PyVal.dict []) else Except.error ()
  | .float q => if q == 0 then Except.ok (PyVal.dict []) else Except.error ()
  | .str s =>
    match s.data with
    | [] => Except.ok (PyVal.dict [])
    | c :: _ => Except.ok (PyVal.str (String.mk [c]))
  | .dict m => if m.isEmpty then Except.ok (PyVal.dict []) else Except.error ()

/-- `safe_get_grid_value` (src/lambda_function.py:193-198):
`grid_data.get(name, {}).get('values', [])`, then the first entry's
`'value'` if the list is truthy, else `''`; `IndexError`, `AttributeError`
and `TypeError` are caught and give `''`.  The one uncaught path is
`values[0]` on a truthy dict (`KeyError`). -/
def safe_get_grid_value (grid : PyVal) (name : String) : Except Unit PyVal :=
  match grid with
  | .dict m =>
    match (lookupStr m name).getD (PyVal.dict []) with
    | .dict m2 =>
      match (lookupStr m2 "values").getD (PyVal.list []) with
      | .list (x :: _) =>
        match x with
        | .dict mx => Except.ok ((lookupStr mx "value").getD (PyVal.str ""))
        | _ => Except.ok (PyVal.str "")
      | .list [] => Except.ok (PyVal.str "")
      | .dict m3 => if m3.isEmpty then Except.ok (PyVal.str "") else Except.error ()
      | _ => Except.ok (PyVal.str "")
    | _ => Except.ok (PyVal.str "")
  | _ => Except.ok (PyVal.str "")

/-- The value `x * 9/5 + 32` of Python's Fahrenheit expression, as an exact
rational built with `mkRat` (`mul95p32Q_spec` below proves it equal to the
arithmetic expression).  In Python, `int * 9` stays `int` and `/ 5` is true
division producing a float. -/
def mul95p32Q (q : ℚ) : ℚ := mkRat (9 * q.num + 160 * (q.den : Int)) (5 * q.den)

theorem mul95p32Q_spec (q : ℚ) : mul95p32Q q = q * 9 / 5 + 32 := by
  have hden0 : ((q.den : ℚ)) ≠ 0 := by
    exact_mod_cast q.den_nz
  have hnum : q * (q.den : ℚ) = (q.num : ℚ) := by
    nth_rewrite 1 [← Rat.num_div_den q]
    exact div_mul_cancel₀ _ hden0
  unfold mul95p32Q
  rw [Rat.mkRat_eq_div]
  push_cast
  rw [div_eq_iff (by positivity : ((5 : ℚ) * q.den) ≠ 0)]
  rw [← hnum]
  ring

/-- `safe_get_value(current,'temperature','value',default=0) * 9/5 + 32`
(src/lambda_function.py:218) on the looked-up value: numbers and booleans
(ints in Python) produce the converted value; a string repeats under `*` and
then raises `TypeError` at `/ 5`; `None`, lists and dicts raise `TypeError`
at `*` — all uncaught, so they fail the whole normalization. -/
def mulNineFifthsPlus32 : PyVal → Option ℚ
  | .int n => Option.some (mul95p32Q (mkRat n 1))
  | .float q => Option.some (mul95p32Q q)
  | .bool b => Option.some (mul95p32Q (if b then mkRat 1 1 else mkRat 0 1))
  | _ => Option.none

/-- The `temperature_fahrenheit` field (src/lambda_function.py:217-220):
`format_number(safe_get_value(...,default=0) * 9/5 + 32 if
safe_get_value(...) is not None else '')`. -/
def fahrenheitValue (current : PyVal) : Except Unit PyVal :=
  if isNoneB (safe_get_value current ["temperature", "value"] (PyVal.str "")) then
    Except.ok (format_number (PyVal.str ""))
  else
    match mulNineFifthsPlus32 (safe_get_value current ["temperature", "value"] (PyVal.int 0)) with
    | Option.some q => Except.ok (format_number (PyVal.float q))
    | Option.none => Except.error ()

/-- The `has_alerts` field (src/lambda_function.py:239):
`'Yes' if raw_data.get('alerts', {}).get('features') else 'No'`; the second
`.get` raises `AttributeError` (uncaught) when the alerts entry is not a
mapping. -/
def hasAlertsValue (raw : PyVal) : Except Unit PyVal :=
  match raw with
  | .dict m =>
    match (lookupStr m "alerts").getD (PyVal.dict []) with
    | .dict ma =>
      Except.ok (PyVal.str
        (if pyTruthy ((lookupStr ma "features").getD PyVal.none) then "Yes" else "No"))
    | _ => Except.error ()
  | _ => Except.error ()

/-- The fixed output schema (src/lambda_function.py:25-49). -/
def FIELDNAMES : List String :=
  ["timestamp", "region", "temperature_celsius", "temperature_fahrenheit", "humidity",
   "wind_speed_ms", "wind_direction", "barometric_pressure", "visibility", "dew_point",
   "heat_index", "wind_chill", "present_weather", "forecast_temp", "short_forecast",
   "detailed_forecast", "snow_level", "ice_accumulation", "precipitation_probability",
   "max_temperature", "min_temperature", "uv_index", "has_alerts"]

/-- `process_weather_data` (src/lambda_function.py:172-246).  `nowTs` stands
for `datetime.now().strftime(...)`.  Field expressions are evaluated in the
source's dictionary-literal order; any uncaught exception in one of them is
re-raised by the outer handler, modelled as `Except.error`.  The update dict
supplies every schema field, so the `''`-initialization is fully overwritten. -/
def process_weather_data (nowTs : String) (raw : PyVal) (regionName : String) :
    Except Unit (List (String × PyVal)) := do
  let cur0 ← pyGetE raw "current" (PyVal.dict [])
  let current ← pyGetE cur0 "properties" (PyVal.dict [])
  let f0 ← pyGetE raw "forecast" (PyVal.dict [])
  let f1 ← pyGetE f0 "properties" (PyVal.dict [])
  let periodsV ← pyGetE f1 "periods" (PyVal.list [])
  let forecast ← firstPeriod periodsV
  let g0 ← pyGetE raw "grid" (PyVal.dict [])
  let grid ← pyGetE g0 "properties" (PyVal.dict [])
  let celsius := format_number (safe_get_value current ["temperature", "value"] (PyVal.str ""))
  let fahrenheit ← fahrenheitValue current
  let humidity := format_number (safe_get_value current ["relativeHumidity", "value"] (PyVal.str ""))
  let windSpeed := format_number (safe_get_value current ["windSpeed", "value"] (PyVal.str ""))
  let windDir := format_number (safe_get_value current ["windDirection", "value"] (PyVal.str ""))
  let pressure := format_number (safe_get_value current ["barometricPressure", "value"] (PyVal.str ""))
  let visibility := format_number (safe_get_value current ["visibility", "value"] (PyVal.str ""))
  let dewPoint := format_number (safe_get_value current ["dewpoint", "value"] (PyVal.str ""))
  let heatIndex := format_number (safe_get_value current ["heatIndex", "value"] (PyVal.str ""))
  let windChill := format_number (safe_get_value current ["windChill", "value"] (PyVal.str ""))
  let presentWeather := PyVal.str (pyStr (safe_get_value current ["textDescription"] (PyVal.str "")))
  let forecastTemp := format_number (safe_get_value forecast ["temperature"] (PyVal.str ""))
  let shortForecast := PyVal.str (pyStr (safe_get_value forecast ["shortForecast"] (PyVal.str "")))
  let detailedForecast := PyVal.str (commaToPipe (stripQuotesStr
    (pyStr (safe_get_value forecast ["detailedForecast"] (PyVal.str "")))))
  let snowLevel ← safe_get_grid_value grid "snowLevel"
  let iceAcc ← safe_get_grid_value grid "iceAccumulation"
  let precip ← safe_get_grid_value grid "probabilityOfPrecipitation"
  let maxTemp ← safe_get_grid_value grid "maxTemperature"
  let minTemp ← safe_get_grid_value grid "minTemperature"
  let uvIndex ← safe_get_grid_value grid "maxDaytimeUVIndex"
  let hasAlerts ← hasAlertsValue raw
  Except.ok
    [("timestamp", PyVal.str nowTs), ("region", PyVal.str regionName),
     ("temperature_celsius", celsius), ("temperature_fahrenheit", fahrenheit),
     ("humidity", humidity), ("wind_speed_ms", windSpeed), ("wind_direction", windDir),
     ("barometric_pressure", pressure), ("visibility", visibility),
     ("dew_point", dewPoint), ("heat_index", heatIndex), ("wind_chill", windChill),
     ("present_weather", presentWeather), ("forecast_temp", forecastTemp),
     ("short_forecast", shortForecast), ("detailed_forecast", detailedForecast),
     ("snow_level", format_number snowLevel), ("ice_accumulation", format_number iceAcc),
     ("precipitation_probability", format_number precip),
     ("max_temperature", format_number maxTemp), ("min_temperature", format_number minTemp),
     ("uv_index", format_number uvIndex), ("has_alerts", hasAlerts)]

theorem exceptBind_ok {α β : Type} (a : α) (f : α → Except Unit β) :
    ((Except.ok a : Except Unit α) >>= f) = f a := rfl

theorem exceptBind_error {α β : Type} (f : α → Except Unit β) :
    ((Except.error () : Except Unit α) >>= f) = Except.error () := rfl

/-- A raw bundle whose current observation maps `temperature.value` to null
(`None`), with ordinary values in the other observed fields. -/
def c2FailingRaw : PyVal :=
  PyVal.dict
    [("current", PyVal.dict [("properties", PyVal.dict
        [("temperature", PyVal.dict [("value", PyVal.none)]),
         ("textDescription", PyVal.str "Cloudy")])]),
     ("forecast", PyVal.dict [("properties", PyVal.dict
        [("periods", PyVal.list [PyVal.dict
          [("temperature", PyVal.int 70),
           ("shortForecast", PyVal.str "Sunny"),
           ("detailedForecast", PyVal.str "Clear")]])])])]

/-- Claim C2 (code bug), evaluating the code at the failing input: when the
Celsius value is null, the record's `temperature_celsius` is the empty
marker but `temperature_fahrenheit` is 32 — the guard
`if safe_get_value(...) is not None else ''` never fires because
`safe_get_value` returns `''` (not `None`) for a null value, so the `0`
default is converted.  The spec (and the dead guard itself) intend the
empty marker. -/
theorem c2_code_evaluation :
    (process_weather_data "2024-01-01 00:00:00" c2FailingRaw "Phoenix_AZ").map
      (fun r => (lookupStr r "temperature_celsius", lookupStr r "temperature_fahrenheit"))
    = Except.ok (Option.some (PyVal.str ""), Option.some (PyVal.int 32)) := by
  rfl

/-- Claim C10 (confirmed): when the current observation's properties mapping
entirely omits the `temperature` key, `safe_get_value` returns `{}` for it,
the Fahrenheit expression multiplies `{} * 9` and raises `TypeError`, and
`process_weather_data` re-raises — the region fails rather than producing a
record with empty temperature fields. -/
theorem c10_process_raises_on_missing_temperature
    (props : List (String × PyVal)) (nowTs regionName : String)
    (h : lookupStr props "temperature" = Option.none) :
    process_weather_data nowTs
      (PyVal.dict [("current", PyVal.dict [("properties", PyVal.dict props)])])
      regionName = Except.error () := by
  have hsgv : ∀ dflt, safe_get_value (PyVal.dict props) ["temperature", "value"] dflt
      = PyVal.dict [] := by
    intro dflt
    have hsame : safe_get_value (PyVal.dict props) ["temperature", "value"] dflt
        = sgvGo (PyVal.dict props) ["temperature", "value"] dflt := by
      cases props <;> rfl
    rw [hsame]
    simp only [sgvGo, h, Option.getD]
    exact sgvGo_emptyDict ["value"] dflt
  have hf : fahrenheitValue (PyVal.dict props) = Except.error () := by
    unfold fahrenheitValue
    rw [hsgv (PyVal.str ""), hsgv (PyVal.int 0)]
    rfl
  simp [process_weather_data, pyGetE, lookupStr, firstPeriod, hf,
    exceptBind_ok, exceptBind_error]

/-- Witness for C10 at a concrete input: an entirely empty properties
mapping makes normalization fail. -/
theorem c10_witness :
    process_weather_data "2024-01-01 00:00:00"
      (PyVal.dict [("current", PyVal.dict [("properties", PyVal.dict [])])])
      "Phoenix_AZ" = Except.error () :=
  c10_process_raises_on_missing_temperature [] "2024-01-01 00:00:00" "Phoenix_AZ" rfl

/-! ### Dataset merger (`save_consolidated_data`, src/lambda_function.py:248-328)

The function reads the existing dataset object (if any), deduplicates its
rows by the composite key `timestamp + "_" + region`, re-serializes the
surviving rows (fields cleaned), appends the new record if its key is new,
and always uploads the resulting bytes.  The model returns the uploaded
body; `Except.error` models an uncaught exception (`KeyError` on a parsed
row or on the new record's key fields).  The `csv` stdlib behaviour
(reader/DictReader/DictWriter with the default comma/double-quote dialect
and CRLF line terminator) is modelled explicitly below. -/

/-- Python `str()` of a scalar (as used by f-string interpolation). -/
def pyStrScalar : Scalar → String
  | .none => "None"
  | .bool b => if b then "True" else "False"
  | .int n => toString n
  | .float q => floatRepr q
  | .str s => s

/-- `','.join` on character lists. -/
def joinCommaChars : List (List Char) → List Char
  | [] => []
  | [f] => f
  | f :: g :: rest => f ++ ',' :: joinCommaChars (g :: rest)

/-- `csv.writer` quotes a field (QUOTE_MINIMAL) iff it contains the
delimiter, the quote character, or a line-terminator character. -/
def csvNeedsQuote (f : List Char) : Bool :=
  f.any (fun c => c == ',' || c == '"' || c == '\r' || c == '\n')

/-- `csv.writer` field encoding: wrap in quotes and double embedded quotes
when quoting is needed, else the field verbatim. -/
def csvEncodeField (f : List Char) : List Char :=
  if csvNeedsQuote f then
    '"' :: (f.foldr (fun c acc => if c == '"' then '"' :: '"' :: acc else c :: acc) []) ++ ['"']
  else f

/-- One serialized CSV row with the default `\r\n` terminator. -/
def csvEncodeRow (fields : List (List Char)) : List Char :=
  joinCommaChars (fields.map csvEncodeField) ++ ['\r', '\n']

/-- The header row written by `DictWriter.writeheader()`. -/
def headerChars : List Char := csvEncodeRow (FIELDNAMES.map String.data)

def headerStr : String := String.mk headerChars

/-- The record emitted at end of line / end of input: the empty record for
a line that consumed no character (Python yields `[]` for a blank line),
else the completed fields in order. -/
def csvEndRec (started : Bool) (field : List Char) (row : List (List Char)) :
    List (List Char) :=
  if !started && field.isEmpty && row.isEmpty then [] else (field.reverse :: row).reverse

/-- `csv.reader` state machine.  Arguments: in-quotes flag, a flag recording
whether the current record has consumed any character (a record that
consumed none is the empty record Python yields for a blank line), the
current field (reversed), the completed fields of the current record
(reversed), the completed records (reversed), and the remaining input. -/
def csvAux : Bool → Bool → List Char → List (List Char) → List (List (List Char)) →
    List Char → List (List (List Char))
  | inQ, started, field, row, acc, [] =>
    if !inQ && !started && field.isEmpty && row.isEmpty then acc.reverse
    else (((field.reverse :: row).reverse) :: acc).reverse
  | true, started, field, row, acc, '"' :: '"' :: rest2 =>
    csvAux true started ('"' :: field) row acc rest2
  | true, started, field, row, acc, '"' :: rest =>
    csvAux false started field row acc rest
  | true, started, field, row, acc, c :: rest =>
    csvAux true started (c :: field) row acc rest
  | false, started, field, row, acc, [c] =>
    if c == ',' then csvAux false true [] (field.reverse :: row) acc []
    else if c == '\r' || c == '\n' then
      csvAux false false [] [] ((csvEndRec started field row) :: acc) []
    else if c == '"' && field.isEmpty then csvAux true true field row acc []
    else csvAux false true (c :: field) row acc []
  | false, started, field, row, acc, c :: d :: rest =>
    if c == '\r' && d == '\n' then
      csvAux false false [] [] ((csvEndRec started field row) :: acc) rest
    else if c == ',' then csvAux false true [] (field.reverse :: row) acc (d :: rest)
    else if c == '\r' || c == '\n' then
      csvAux false false [] [] ((csvEndRec started field row) :: acc) (d :: rest)
    else if c == '"' && field.isEmpty then csvAux true true field row acc (d :: rest)
    else csvAux false true (c :: field) row acc (d :: rest)

/-- `csv.reader` over a whole text: the list of records, each a list of
field strings. -/
def csvParse (s : String) : List (List String) :=
  (csvAux false false [] [] [] s.data).map (fun r => r.map (fun f => String.mk f))

/-- `csv.DictReader` row construction: header keys zipped with the row's
fields, missing fields filled with the restval `None`, extra fields beyond
the header dropped (they live under the `None` restkey, which no modelled
access reads). -/
def zipRestval : List String → List String → List (String × Option String)
  | [], _ => []
  | h :: hs, [] => (h, Option.none) :: zipRestval hs []
  | h :: hs, f :: fs => (h, Option.some f) :: zipRestval hs fs

/-- Association lookup in a `DictReader` row: outer `Option.none` means the
key is absent (Python `KeyError` on `row[k]`), inner `Option.none` is the
restval `None`. -/
def drGet : List (String × Option String) → String → Option (Option String)
  | [], _ => Option.none
  | (k', v) :: rest, k => if k' = k then Option.some v else drGet rest k

/-- f-string rendering of a row value (`None` prints as `"None"`). -/
def fstr : Option String → String
  | Option.some s => s
  | Option.none => "None"

/-- `csv.DictReader`: the first record is the header, blank records are
skipped, the rest become keyed rows. -/
def dictHeaderRows : List (List String) →
    List String × List (List (String × Option String))
  | [] => ([], [])
  | header :: rest => (header, (rest.filter (fun r => !r.isEmpty)).map (zipRestval header))

/-- The row loop of src/lambda_function.py:288-293: keep the first row for
each composite key `f"{row['timestamp']}_{row['region']}"`; `row[...]` on a
row lacking the key raises `KeyError` (uncaught).  Returns the surviving
rows in order together with the set (as a list) of keys seen. -/
def dedupRows (seen : List String) : List (List (String × Option String)) →
    Except Unit (List (List (String × Option String)) × List String)
  | [] => Except.ok ([], seen)
  | r :: rs =>
    match drGet r "timestamp", drGet r "region" with
    | Option.some t, Option.some reg =>
      let key := fstr t ++ "_" ++ fstr reg
      if seen.contains key then dedupRows seen rs
      else
        match dedupRows (key :: seen) rs with
        | Except.ok res => Except.ok (r :: res.1, res.2)
        | Except.error e => Except.error e
    | _, _ => Except.error ()

/-- `row.get(k, '')` as a cleaner input: a present string, a present
restval `None`, or the `''` default for an absent key. -/
def rowGetScalar (r : List (String × Option String)) (k : String) : Scalar :=
  match drGet r k with
  | Option.some (Option.some s) => Scalar.str s
  | Option.some Option.none => Scalar.none
  | Option.none => Scalar.str ""

/-- `{k: clean_value(row.get(k, '')) for k in FIELDNAMES}`, in the fixed
schema order the DictWriter writes. -/
def cleanDictRow (r : List (String × Option String)) : List (List Char) :=
  FIELDNAMES.map (fun k => (clean_value (rowGetScalar r k)).data)

/-- First-match lookup in the new record. -/
def lookupScalar : List (String × Scalar) → String → Option Scalar
  | [], _ => Option.none
  | (k', v) :: rest, k => if k' = k then Option.some v else lookupScalar rest k

/-- `data.get(k, '')`. -/
def dataGetScalar (data : List (String × Scalar)) (k : String) : Scalar :=
  (lookupScalar data k).getD (Scalar.str "")

/-- The serialized new record row (fields cleaned, schema order). -/
def newRowChars (data : List (String × Scalar)) : List Char :=
  csvEncodeRow (FIELDNAMES.map (fun k => (clean_value (dataGetScalar data k)).data))

/-- The sanity check of src/lambda_function.py:285:
`existing_csv.strip() and ',' in existing_csv`. -/
def pySanity (s : String) : Bool :=
  !(pyStripIf isPySpace s.data).isEmpty && s.data.any (fun c => c == ',')

/-- Lines 276-305: read and re-serialize the surviving existing rows.
`Option.none` models the `NoSuchKey` exception caught at line 302 (header
only); a present file failing the sanity check leaves the output buffer
empty; a valid file is parsed, deduplicated and re-written (header, then
cleaned rows).  The result pairs the buffer content with the seen-keys set.
The model's CSV parser is total, so the `csv.Error` arm of the `except` at
line 302 is unreachable. -/
def saveExistingPhase : Option String → Except Unit (String × List String)
  | Option.none => Except.ok (headerStr, [])
  | Option.some csvText =>
    if pySanity csvText then
      match dedupRows [] (dictHeaderRows (csvParse csvText)).2 with
      | Except.ok res =>
        Except.ok (headerStr ++
          String.join (res.1.map (fun r => String.mk (csvEncodeRow (cleanDictRow r)))),
          res.2)
      | Except.error e => Except.error e
    else Except.ok ("", [])

/-- Lines 307-316: compute the new record's key (`KeyError` if `timestamp`
or `region` is missing from the record), skip the append when the key was
seen, else append the cleaned record (writing the header first if nothing
has been written yet). -/
def saveAppendPhase (pre : String × List String) (data : List (String × Scalar)) :
    Except Unit String :=
  match lookupScalar data "timestamp", lookupScalar data "region" with
  | Option.some tv, Option.some rv =>
    let newKey := pyStrScalar tv ++ "_" ++ pyStrScalar rv
    if pre.2.contains newKey then Except.ok pre.1
    else
      let base := if pre.1 = "" then headerStr else pre.1
      Except.ok (base ++ String.mk (newRowChars data))
  | _, _ => Except.error ()

/-- `save_consolidated_data` (src/lambda_function.py:248-328), as the pure
bytes-to-bytes merge: given the existing object's content and the new
record, produce the body passed to `put_object` — the upload happens
unconditionally when nothing raised.  A `KeyError` (parsed row or new record
without `timestamp`/`region`) is uncaught in the source and is the model's
`Except.error`. -/
def save_consolidated_data (existing : Option String) (data : List (String × Scalar)) :
    Except Unit String := do
  let pre ← saveExistingPhase existing
  saveAppendPhase pre data

/-! ### Specification-side row-level description of the merge -/

theorem string_mk_ne_empty {l : List Char} (h : l ≠ []) : String.mk l ≠ "" := by
  intro hc
  apply h
  have : (String.mk l).data = ("" : String).data := by rw [hc]
  simpa using this

theorem save_eq_of_phase {existing : Option String} {p : String × List String}
    {data : List (String × Scalar)} (h : saveExistingPhase existing = Except.ok p) :
    save_consolidated_data existing data = saveAppendPhase p data := by
  unfold save_consolidated_data
  rw [h]
  rfl

theorem headerChars_ne_nil : headerChars ≠ [] := by
  obtain ⟨tl, htl⟩ : ∃ tl, headerChars = 't' :: tl := ⟨_, rfl⟩
  rw [htl]
  intro hcontr
  exact List.noConfusion hcontr

theorem headerStr_ne_empty : headerStr ≠ "" :=
  string_mk_ne_empty headerChars_ne_nil

theorem save_fresh (existing : Option String) (data : List (String × Scalar))
    (tv rv : Scalar)
    (ht : lookupScalar data "timestamp" = Option.some tv)
    (hreg : lookupScalar data "region" = Option.some rv)
    (h : existing = Option.none ∨ ∃ s, existing = Option.some s ∧ pySanity s = false) :
    save_consolidated_data existing data
      = Except.ok (headerStr ++ String.mk (newRowChars data)) := by
  have hnil : ¬(([] : List String).contains (pyStrScalar tv ++ "_" ++ pyStrScalar rv) = true) := by
    simp
  rcases h with rfl | ⟨s, rfl, hs⟩
  · have hphase : saveExistingPhase Option.none = Except.ok (headerStr, []) := rfl
    rw [save_eq_of_phase hphase]
    unfold saveAppendPhase
    rw [ht, hreg]
    dsimp only
    rw [if_neg hnil, if_neg headerStr_ne_empty]
  · have hphase : saveExistingPhase (Option.some s) = Except.ok ("", []) := by
      simp only [saveExistingPhase]
      rw [if_neg (by simp [hs])]
    rw [save_eq_of_phase hphase]
    unfold saveAppendPhase
    rw [ht, hreg]
    dsimp only
    rw [if_neg hnil, if_pos rfl]

/-- Claim C8 (confirmed): when the existing dataset is absent, or present but
empty or failing the minimal sanity check (no comma — non-CSV-shaped bytes),
the merge recovers locally (no error) and uploads a fresh dataset consisting
of the column header followed by the cleaned new record only. -/
theorem c8_merge_recovers_fresh (existing : Option String) (data : List (String × Scalar))
    (tv rv : Scalar)
    (ht : lookupScalar data "timestamp" = Option.some tv)
    (hreg : lookupScalar data "region" = Option.some rv)
    (h : existing = Option.none ∨ ∃ s, existing = Option.some s ∧ pySanity s = false) :
    save_consolidated_data existing data
      = Except.ok (headerStr ++ String.mk (newRowChars data)) :=
  save_fresh existing data tv rv ht hreg h

/-- Witness for C8 at a concrete input: non-CSV-shaped bytes as the existing
dataset give header plus the new record. -/
theorem c8_merge_recovers_fresh_witness :
    save_consolidated_data (Option.some "garbage")
        [("timestamp", Scalar.str "2024-01-01 00:00:00"), ("region", Scalar.str "Phoenix_AZ")]
      = Except.ok (headerStr ++ String.mk (newRowChars
          [("timestamp", Scalar.str "2024-01-01 00:00:00"), ("region", Scalar.str "Phoenix_AZ")])) :=
  c8_merge_recovers_fresh (Option.some "garbage") _
    (Scalar.str "2024-01-01 00:00:00") (Scalar.str "Phoenix_AZ") rfl rfl
    (Or.inr ⟨"garbage", rfl, by decide⟩)

